import Mathlib

/-!
# ParticleSystem.js: a shallow embedding

The program keeps a list of canvas elements (`Snow`, `Rain`, `Bug`, all subclasses of
`Element`), moves every one of them once per animation frame and appends one new element
per frame.

Modelling choices:

* JavaScript numbers are modelled by exact rationals (`Value.num`), together with the two
  non-numeric results the program can in principle produce, `undefined` (a read outside an
  array) and `NaN` (arithmetic on `undefined`).  `randInt` and the additions of `doFrame`
  are exact; the concrete draws used with them are dyadic fractions, on which the
  arithmetic of the program is exact in doubles as well.
* The rounding of IEEE binary64 matters to `randInt` at the top of the range of
  `Math.random()`.  It is modelled by `binary64` and `Binary64.randInt`, with which the
  constructors are evaluated where the rounded and the exact result differ.
* `Math.random()` is modelled by an explicit stream `random : ℕ → ℚ`; `random i` is the
  result of the `i`-th call made while the modelled function runs.
* The 2D drawing context is write-only for this program, so every function that draws
  returns the list of drawing calls it issued.
* `window.requestAnimationFrame(onFrame)` only asks the host to call `onFrame` again; the
  host's scheduling is represented by applying `onFrame` repeatedly (`onFrames`).
-/

namespace ParticleSystem

/-! ## Values -/

/-- A JavaScript value as held in the numeric properties of an element. -/
inductive Value where
  | num (q : ℚ)
  | undefined
  | NaN
  deriving DecidableEq

namespace Value

/-- The `+` operator (and `+=`) on the values above: finite numbers add, and
`undefined` converts to `NaN`, which is absorbing. -/
def add : Value → Value → Value
  | num a, num b => num (a + b)
  | _, _ => NaN

instance : Add Value := ⟨add⟩

/-- The comparison `v > bound` against a canvas dimension: `undefined` converts to `NaN`
and every comparison with `NaN` is false. -/
def gt : Value → ℕ → Bool
  | num a, bound => decide ((bound : ℚ) < a)
  | _, _ => false

end Value

/-- The part of the `<canvas>` DOM element the program reads: `canvas.width` and
`canvas.height` (unsigned integers in the DOM). -/
structure Canvas where
  width : ℕ
  height : ℕ
  deriving DecidableEq

/-- Calls made on the 2D drawing context `ctx`. -/
inductive DrawCmd where
  | clearRect (x y w h : Value)
  | strokeRect (x y w h : Value)
  | beginPath
  | moveTo (x y : Value)
  | lineTo (x y : Value)
  | stroke
  | drawImage (x y : Value)
  deriving DecidableEq

/-! ## Utility functions -/

/-- `Math.round` on a finite number: the nearest integer, ties towards `+∞`. -/
def Math.round (q : ℚ) : ℤ := ⌊q + 1 / 2⌋

/-- `randInt(min, max)`: `Math.floor((Math.random() * max) + min)`, where `random` is the
value returned by the call of `Math.random()`. -/
def randInt (min max : ℤ) (random : ℚ) : ℤ := ⌊random * max + min⌋

/-- Array read `arr[i]` for an integer index: `undefined` outside `0 .. arr.length - 1`. -/
def index (arr : List ℤ) (i : ℤ) : Value :=
  if 0 ≤ i then
    match arr[i.toNat]? with
    | some v => .num v
    | none => .undefined
  else .undefined

/-! ## The element classes -/

/-- The classes that `selection` can refer to. -/
inductive ElementType where
  | Snow
  | Rain
  | Bug
  deriving DecidableEq

/-- The class of an object together with the own properties its constructor adds to those
of `Element`: `len` for `Rain`, `dyLoop` and `curDyIndex` for `Bug` (`bugPic` is a DOM
reference that no method reads, and is left out). -/
inductive Subclass where
  | Element
  | Snow
  | Rain (len : ℤ)
  | Bug (dyLoop : List ℤ) (curDyIndex : ℤ)
  deriving DecidableEq

/-- The class of an object, when it is one of the three concrete classes. -/
def Subclass.type : Subclass → Option ElementType
  | .Element => none
  | .Snow => some .Snow
  | .Rain _ => some .Rain
  | .Bug _ _ => some .Bug

/-- An instance of `Element` or of one of its subclasses: the four properties set by
`Element`'s constructor and the subclass part. -/
structure Element where
  x : Value
  y : Value
  dx : Value
  dy : Value
  sub : Subclass
  deriving DecidableEq

/-- `new Snow()`; `random 0` is the coin flip, `random 1` the draw of `randInt`. -/
def Snow.constructor (canvas : Canvas) (random : ℕ → ℚ) : Element :=
  if Math.round (random 0) = 1 then
    { x := .num 0, y := .num (randInt 1 canvas.height (random 1)), dx := .num 2, dy := .num 1,
      sub := .Snow }
  else
    { x := .num (randInt 1 canvas.width (random 1)), y := .num 0, dx := .num 2, dy := .num 1,
      sub := .Snow }

/-- `new Rain()`; the three calls of `randInt` are, in evaluation order, the one for `x`,
the one for `dy` and the one for `len`. -/
def Rain.constructor (canvas : Canvas) (random : ℕ → ℚ) : Element :=
  let minDy : ℤ := 2
  let maxDy : ℤ := 5
  let minLen : ℤ := 4
  let maxLen : ℤ := 10
  { x := .num (randInt 1 canvas.width (random 0)), y := .num 0, dx := .num 0,
    dy := .num (randInt minDy maxDy (random 1)),
    sub := .Rain (randInt minLen maxLen (random 2)) }

/-- The lookup table of `Bug`. -/
def dyLoop : List ℤ := [0, 1, 2, 1, 0, -1, -2, -1]

/-- `new Bug()`; the three calls of `randInt` are, in evaluation order, the one for
`curDyIndex`, the one for `y` and the one for `dx`. -/
def Bug.constructor (canvas : Canvas) (random : ℕ → ℚ) : Element :=
  let curDyIndex : ℤ := randInt 0 dyLoop.length (random 0)
  let minDx : ℤ := 1
  let maxDx : ℤ := 6
  { x := .num 0, y := .num (randInt 1 canvas.height (random 1)),
    dx := .num (randInt minDx maxDx (random 2)), dy := index dyLoop curDyIndex,
    sub := .Bug dyLoop curDyIndex }

/-- `new type()` for the class `type`. -/
def construct (type : ElementType) (canvas : Canvas) (random : ℕ → ℚ) : Element :=
  match type with
  | .Snow => Snow.constructor canvas random
  | .Rain => Rain.constructor canvas random
  | .Bug => Bug.constructor canvas random

/-- `this.dorender(ctx)`, dispatched on the class of the object.  Returns the object after
the call and the drawing calls issued.  The remainder operator `%` of JavaScript truncates
towards zero (`Int.tmod`). -/
def Element.dorender (el : Element) : Element × List DrawCmd :=
  match el.sub with
  | .Element => (el, [])
  | .Snow => (el, [.strokeRect el.x el.y (.num 5) (.num 5)])
  | .Rain len => (el, [.beginPath, .moveTo el.x el.y, .lineTo el.x (el.y + .num len), .stroke])
  | .Bug dyLoop curDyIndex =>
    ({ el with dy := index dyLoop curDyIndex,
               sub := .Bug dyLoop (Int.tmod (curDyIndex + 1) dyLoop.length) },
     [.drawImage el.x el.y])

/-- The statement `delete this.doFrame`.  `delete` removes an *own* property of the object.
The objects built by the constructors own only data properties (`x`, `y`, `dx`, `dy`,
`len`, `bugPic`, `dyLoop`, `curDyIndex`); `doFrame` is declared in the class body and is
therefore a property of `Element.prototype`.  The object has no own property of that name,
so the statement changes nothing and `el.doFrame` still resolves through the prototype. -/
def deleteDoFrame (el : Element) : Element := el

/-- `el.doFrame(ctx)`: the object after the call and the drawing calls issued. -/
def Element.doFrame (canvas : Canvas) (el : Element) : Element × List DrawCmd :=
  let el := { el with x := el.x + el.dx }
  let el := { el with y := el.y + el.dy }
  if el.x.gt canvas.width || el.y.gt canvas.height then
    (deleteDoFrame el, [])
  else
    el.dorender

/-! ## Simulation state and the frame loop -/

/-- The global variables of the program, the text of the pause button and the drawing
calls issued so far on the canvas context. -/
structure State where
  paused : Bool
  selection : ElementType
  canvasElements : List Element
  canvas : Canvas
  pauseButton : String
  ctx : List DrawCmd
  deriving DecidableEq

/-- `canvasElements.forEach((el) => el.doFrame(ctx))`: the elements after the loop, in
order, and the drawing calls issued, in order. -/
def forEachDoFrame (canvas : Canvas) : List Element → List Element × List DrawCmd
  | [] => ([], [])
  | el :: rest =>
    let r := el.doFrame canvas
    let rs := forEachDoFrame canvas rest
    (r.1 :: rs.1, r.2 ++ rs.2)

/-- One call of `onFrame()`; `random` are the results of `Math.random()` during the call. -/
def onFrame (st : State) (random : ℕ → ℚ) : State :=
  if !st.paused then
    let ctx := st.ctx ++ [.clearRect (.num 0) (.num 0) (.num st.canvas.width)
      (.num st.canvas.height)]
    let r := forEachDoFrame st.canvas st.canvasElements
    { st with ctx := ctx ++ r.2,
              canvasElements := r.1 ++ [construct st.selection st.canvas random] }
  else st

/-- The state after `k` successive calls of `onFrame()`; `randoms j` are the results of
`Math.random()` during call number `j` (counting from `0`). -/
def onFrames (st : State) (randoms : ℕ → ℕ → ℚ) : ℕ → State
  | 0 => st
  | k + 1 => onFrame (onFrames st randoms k) (randoms k)

/-- One call of `onPauseChange()`. -/
def onPauseChange (st : State) : State :=
  let paused := !st.paused
  { st with paused := paused, pauseButton := if paused then "Unpause" else "Pause" }

/-- One call of `onChangeType(type)`. -/
def onChangeType (st : State) (type : ElementType) : State :=
  { st with selection := type, canvasElements := [] }

/-- The state when the script has loaded and `onInit` has fetched the canvas. -/
def initial (canvas : Canvas) (pauseButton : String) : State :=
  { paused := false, selection := .Snow, canvasElements := [], canvas := canvas,
    pauseButton := pauseButton, ctx := [] }

/-- The element after `n` successive calls of `doFrame`. -/
def ticks (canvas : Canvas) : ℕ → Element → Element
  | 0, el => el
  | n + 1, el => ticks canvas n (el.doFrame canvas).1

/-- The drawing calls issued by the `n`-th call of `doFrame` on `el`, counting from `0`. -/
def drawnAt (canvas : Canvas) (n : ℕ) (el : Element) : List DrawCmd :=
  ((ticks canvas n el).doFrame canvas).2

/-- The test of `doFrame` on the stored position: `x > canvas.width || y > canvas.height`. -/
def outOfBounds (canvas : Canvas) (el : Element) : Bool :=
  el.x.gt canvas.width || el.y.gt canvas.height

/-- The stream of `Math.random()` results that starts with the entries of `l` (and
continues with `0`). -/
def draws (l : List ℚ) : ℕ → ℚ := fun i => l.getD i 0

/-- The first two statements of `doFrame`: `this.x += this.dx; this.y += this.dy`. -/
def Element.moved (el : Element) : Element :=
  { el with x := el.x + el.dx, y := el.y + el.dy }

/-- The sum of the entries of `dyLoop` before the position `c`. -/
def prefixSum (c : ℤ) : ℤ := (dyLoop.take c.toNat).sum

/-- The text `onPauseChange` gives the pause button for a value of `paused`. -/
def pauseLabel (paused : Bool) : String := if paused then "Unpause" else "Pause"

/-- The state of a `Bug` between ticks: it carries the table `dyLoop`, its cursor is an
index `0 .. 7` of the table, and `dy` is an entry of the table. -/
def BugInv (el : Element) : Prop :=
  ∃ c v : ℤ, el.sub = .Bug dyLoop c ∧ 0 ≤ c ∧ c ≤ 7 ∧ el.dy = .num v ∧ v ∈ dyLoop

/-- The state of a constructed element between ticks: position and velocity are numbers,
`dx` is not negative, `dy` is not negative when `y` is above `canvas.height`, and `dy` is
never negative for `Snow` and `Rain`. -/
def NoReturn (canvas : Canvas) (el : Element) : Prop :=
  ∃ x y dx dy : ℚ, el = ⟨.num x, .num y, .num dx, .num dy, el.sub⟩ ∧ 0 ≤ dx ∧
    ((canvas.height : ℚ) < y → 0 ≤ dy) ∧
    (match el.sub with
      | .Bug _ _ => BugInv el
      | .Snow => 0 ≤ dy
      | .Rain _ => 0 ≤ dy
      | .Element => False)

/-- The relation between a `Bug` and its spawn height `y0` while it is in bounds: the
height the next tick will reach, `y + dy`, is `y0 + K + prefixSum curDyIndex`, for an
offset `K` fixed at construction. -/
def Drift (y0 : ℚ) (K : ℤ) (el : Element) : Prop :=
  ∃ (c : ℤ) (y d : ℚ), el.sub = .Bug dyLoop c ∧ 0 ≤ c ∧ c ≤ 7 ∧ el.y = .num y ∧
    el.dy = .num d ∧ y + d = y0 + K + prefixSum c

/-! ## Binary64 arithmetic in `randInt`

`randInt` above computes `random * max + min` exactly.  The program computes the product
and the sum in IEEE binary64, each rounded to nearest with ties to even.  The definitions
of this section follow the program through both roundings; they agree with the exact ones
whenever neither rounding changes its argument (`binary64_randInt_eq_exact`), and differ
at the top of the range of `Math.random()`. -/

/-- The integer nearest to `t`, the even one of the two when `t` lies half-way. -/
def roundTiesToEven (t : ℚ) : ℤ :=
  if t - ⌊t⌋ < 1 / 2 then ⌊t⌋
  else if 1 / 2 < t - ⌊t⌋ then ⌊t⌋ + 1
  else if ⌊t⌋ % 2 = 0 then ⌊t⌋ else ⌊t⌋ + 1

/-- The exponent `e` such that the binary64 numbers around `q` are the multiples of `2 ^ e`:
53 significant bits, and `2 ^ (-1074)` as the smallest spacing (subnormal numbers). -/
def ulpExponent (q : ℚ) : ℤ := max (Int.log 2 |q| - 52) (-1074)

/-- The binary64 number that an arithmetic operation with exact result `q` returns (round
to nearest, ties to even).  Overflow to `Infinity`, which needs `|q| ≥ 2 ^ 1024`, is not
modelled. -/
def binary64 (q : ℚ) : ℚ := roundTiesToEven (q / 2 ^ ulpExponent q) * 2 ^ ulpExponent q

namespace Binary64

/-- `randInt(min, max)` as the program computes it: the product `Math.random() * max` and
the sum with `min` are both rounded to binary64; `Math.floor` is exact. -/
def randInt (min max : ℤ) (random : ℚ) : ℤ := ⌊binary64 (binary64 (random * max) + min)⌋

/-- `new Snow()` with `randInt` computed in binary64. -/
def Snow.constructor (canvas : Canvas) (random : ℕ → ℚ) : Element :=
  if Math.round (random 0) = 1 then
    { x := .num 0, y := .num (randInt 1 canvas.height (random 1)), dx := .num 2, dy := .num 1,
      sub := .Snow }
  else
    { x := .num (randInt 1 canvas.width (random 1)), y := .num 0, dx := .num 2, dy := .num 1,
      sub := .Snow }

/-- `new Bug()` with `randInt` computed in binary64. -/
def Bug.constructor (canvas : Canvas) (random : ℕ → ℚ) : Element :=
  let curDyIndex : ℤ := randInt 0 dyLoop.length (random 0)
  let minDx : ℤ := 1
  let maxDx : ℤ := 6
  { x := .num 0, y := .num (randInt 1 canvas.height (random 1)),
    dx := .num (randInt minDx maxDx (random 2)), dy := index dyLoop curDyIndex,
    sub := .Bug dyLoop curDyIndex }

end Binary64

/-! ## Basic facts -/

theorem Value.num_add_num (a b : ℚ) : Value.num a + Value.num b = Value.num (a + b) := rfl

theorem Value.gt_num (a : ℚ) (bound : ℕ) :
    (Value.num a).gt bound = decide ((bound : ℚ) < a) := rfl

/-- What `randInt` computes for a positive `max`: an integer between `min` and
`min + max - 1`. -/
theorem randInt_range (min max : ℤ) (r : ℚ) (hmax : 0 < max) (h0 : 0 ≤ r) (h1 : r < 1) :
    min ≤ randInt min max r ∧ randInt min max r ≤ min + max - 1 := by
  have hq : (0 : ℚ) < (max : ℚ) := by exact_mod_cast hmax
  have hfl : randInt min max r = ⌊r * (max : ℚ)⌋ + min := by
    unfold randInt
    exact Int.floor_add_int _ _
  have hlo : 0 ≤ ⌊r * (max : ℚ)⌋ := Int.floor_nonneg.mpr (mul_nonneg h0 hq.le)
  have hhi : ⌊r * (max : ℚ)⌋ < max := by
    rw [Int.floor_lt]
    calc r * (max : ℚ) < 1 * (max : ℚ) := mul_lt_mul_of_pos_right h1 hq
      _ = (max : ℚ) := one_mul _
  rw [hfl]
  constructor <;> omega

/-- With `min = 1` the result of `randInt` lies between `1` and `max`. -/
theorem randInt_one_range (max : ℕ) (r : ℚ) (hmax : 0 < max) (h0 : 0 ≤ r) (h1 : r < 1) :
    1 ≤ randInt 1 max r ∧ randInt 1 max r ≤ max := by
  have h := randInt_range 1 (max : ℤ) r (by exact_mod_cast hmax) h0 h1
  constructor
  · exact h.1
  · have := h.2
    omega

/-- The coin flip of `Snow`: `Math.round` of a draw in `[0, 1)` is `0` or `1`. -/
theorem Math.round_draw (r : ℚ) (h0 : 0 ≤ r) (h1 : r < 1) :
    Math.round r = 0 ∨ Math.round r = 1 := by
  unfold Math.round
  have hlo : 0 ≤ ⌊r + 1 / 2⌋ := Int.floor_nonneg.mpr (by linarith)
  have hhi : ⌊r + 1 / 2⌋ < 2 := by
    rw [Int.floor_lt]
    push_cast
    linarith
  omega

/-! ## `randInt` and the constructors -/

/-- C5, evaluated on the code: for `min = 2`, `max = 5` and the draw `0.875` (the call
`randInt(minDy, maxDy)` of `Rain`), `randInt` returns `6`, which is above `max`, although
`min ≤ max` and the draw lies in `[0, 1)`. -/
theorem randInt_above_max :
    (2 : ℤ) ≤ 5 ∧ (0 : ℚ) ≤ 7 / 8 ∧ (7 / 8 : ℚ) < 1 ∧ randInt 2 5 (7 / 8) = 6 ∧
      ¬ randInt 2 5 (7 / 8) ≤ 5 := by
  have h : randInt 2 5 (7 / 8) = 6 := by
    norm_num [randInt, Int.floor_eq_iff]
  rw [h]
  norm_num

/-- A tick of a `Rain` object changes neither its class part (so not `len`) nor its
velocity. -/
theorem Rain_doFrame_keeps (canvas : Canvas) (el : Element) (len : ℤ)
    (h : el.sub = .Rain len) :
    (el.doFrame canvas).1.sub = .Rain len ∧ (el.doFrame canvas).1.dx = el.dx ∧
      (el.doFrame canvas).1.dy = el.dy := by
  unfold Element.doFrame deleteDoFrame Element.dorender
  simp only [h]
  split <;> exact ⟨rfl, rfl, rfl⟩

/-- Any number of ticks of a `Rain` object changes neither `len` nor its velocity. -/
theorem Rain_ticks_keeps (canvas : Canvas) (n : ℕ) (el : Element) (len : ℤ)
    (h : el.sub = .Rain len) :
    (ticks canvas n el).sub = .Rain len ∧ (ticks canvas n el).dx = el.dx ∧
      (ticks canvas n el).dy = el.dy := by
  induction n generalizing el with
  | zero => exact ⟨h, rfl, rfl⟩
  | succ n ih =>
    obtain ⟨hs, hdx, hdy⟩ := Rain_doFrame_keeps canvas el len h
    obtain ⟨h1, h2, h3⟩ := ih (el.doFrame canvas).1 hs
    exact ⟨h1, h2.trans hdx, h3.trans hdy⟩

/-- What the `Rain` constructor computes for draws in `[0, 1)`: `dy` is an integer in
`[2, 6]` and `len` an integer in `[4, 13]`. -/
theorem Rain_constructor_range (canvas : Canvas) (random : ℕ → ℚ)
    (h : ∀ i, 0 ≤ random i ∧ random i < 1) :
    ∃ dy len : ℤ, (Rain.constructor canvas random).dy = .num dy ∧
      (Rain.constructor canvas random).sub = .Rain len ∧
      2 ≤ dy ∧ dy ≤ 6 ∧ 4 ≤ len ∧ len ≤ 13 := by
  have hdy := randInt_range 2 5 (random 1) (by norm_num) (h 1).1 (h 1).2
  have hlen := randInt_range 4 10 (random 2) (by norm_num) (h 2).1 (h 2).2
  refine ⟨randInt 2 5 (random 1), randInt 4 10 (random 2), rfl, rfl, hdy.1, ?_, hlen.1, ?_⟩
  · have := hdy.2
    omega
  · have := hlen.2
    omega

/-- Every entry of a stream built by `draws` from entries in `[0, 1)` lies in `[0, 1)`. -/
theorem draws_unit (l : List ℚ) (h : ∀ q ∈ l, 0 ≤ q ∧ q < 1) (i : ℕ) :
    0 ≤ draws l i ∧ draws l i < 1 := by
  unfold draws
  by_cases hi : i < l.length
  · rw [List.getD_eq_getElem l 0 hi]
    exact h _ (List.getElem_mem hi)
  · rw [List.getD_eq_default l 0 (by omega)]
    norm_num

/-- C3, evaluated on the code: on a 100 x 100 canvas, when the second draw of the `Rain`
constructor is `0.875` (all draws in `[0, 1)`), the new drop has `dx = 0` and `dy = 6`,
outside `[2, 5]`, and `dy` is still `6` after any number of ticks. -/
theorem Rain_dy_six :
    (∀ i, 0 ≤ draws [0, 7 / 8, 0] i ∧ draws [0, 7 / 8, 0] i < 1) ∧
      (Rain.constructor ⟨100, 100⟩ (draws [0, 7 / 8, 0])).dx = .num 0 ∧
      ∀ n, (ticks ⟨100, 100⟩ n (Rain.constructor ⟨100, 100⟩ (draws [0, 7 / 8, 0]))).dy
        = .num 6 := by
  refine ⟨draws_unit _ (by norm_num), rfl, ?_⟩
  intro n
  have h : (Rain.constructor ⟨100, 100⟩ (draws [0, 7 / 8, 0])).dy = .num 6 := by
    norm_num [Rain.constructor, draws, randInt, Int.floor_eq_iff]
  rw [(Rain_ticks_keeps ⟨100, 100⟩ n _ _ rfl).2.2, h]

/-- C4, evaluated on the code: on a 100 x 100 canvas, when the third draw of the `Rain`
constructor is `0.875` (all draws in `[0, 1)`), the new drop has `len = 12`, outside
`[4, 10]`; `len` is still `12` after any number of ticks. -/
theorem Rain_len_twelve :
    (∀ i, 0 ≤ draws [0, 0, 7 / 8] i ∧ draws [0, 0, 7 / 8] i < 1) ∧
      ∀ n, (ticks ⟨100, 100⟩ n (Rain.constructor ⟨100, 100⟩ (draws [0, 0, 7 / 8]))).sub
        = .Rain 12 := by
  refine ⟨draws_unit _ (by norm_num), ?_⟩
  intro n
  have h : (Rain.constructor ⟨100, 100⟩ (draws [0, 0, 7 / 8])).sub = .Rain 12 := by
    norm_num [Rain.constructor, draws, randInt, Int.floor_eq_iff]
  exact (Rain_ticks_keeps ⟨100, 100⟩ n _ 12 h).1

/-! ## The constructors in binary64 arithmetic -/

/-- The spacing of the binary64 numbers around `q`, given the powers of two that
enclose `|q|`. -/
theorem ulpExponent_of_binade (q : ℚ) (k : ℤ) (h1 : (2 : ℚ) ^ k ≤ |q|)
    (h2 : |q| < (2 : ℚ) ^ (k + 1)) (hk : -1022 ≤ k) : ulpExponent q = k - 52 := by
  have hpos : 0 < |q| := lt_of_lt_of_le (by positivity) h1
  have hlog : Int.log 2 |q| = k := by
    apply le_antisymm
    · have := (Int.lt_zpow_iff_log_lt (b := 2) (by norm_num) hpos (x := k + 1)).mp
        (by simpa using h2)
      omega
    · exact (Int.zpow_le_iff_le_log (b := 2) (by norm_num) hpos).mp (by simpa using h1)
  unfold ulpExponent
  rw [hlog]
  omega

/-- Where neither rounding changes its argument, the binary64 result of `randInt` is the
exact one. -/
theorem binary64_randInt_eq_exact (min max : ℤ) (r : ℚ)
    (hmul : binary64 (r * max) = r * max) (hadd : binary64 (r * max + min) = r * max + min) :
    Binary64.randInt min max r = randInt min max r := by
  unfold Binary64.randInt randInt
  rw [hmul, hadd]

/-- Rounding leaves `0` unchanged. -/
theorem binary64_zero : binary64 0 = 0 := by
  simp [binary64, roundTiesToEven]

/-- Rounding leaves `1` unchanged. -/
theorem binary64_one : binary64 1 = 1 := by
  have he : ulpExponent 1 = -52 := by
    rw [ulpExponent_of_binade 1 0 (by norm_num) (by norm_num) (by norm_num)]
    norm_num
  unfold binary64
  rw [he]
  norm_num [roundTiesToEven, Int.floor_eq_iff]

/-- The largest binary64 number below `1`, `1 - 2 ^ (-53)`, is a binary64 number. -/
theorem binary64_pred_one : binary64 (1 - 1 / 2 ^ 53) = 1 - 1 / 2 ^ 53 := by
  have he : ulpExponent (1 - 1 / 2 ^ 53) = -53 := by
    rw [ulpExponent_of_binade _ (-1) (by norm_num [abs_of_pos]) (by norm_num [abs_of_pos])
      (by norm_num)]
    norm_num
  unfold binary64
  rw [he]
  norm_num [roundTiesToEven, Int.floor_eq_iff]

/-- At the draw `1 - 2 ^ (-53)`, `randInt(1, 128)` is `129` in binary64: the product
`128 - 2 ^ (-46)` is exact, and the sum `129 - 2 ^ (-46)` lies half-way between the
binary64 numbers `129 - 2 ^ (-45)` and `129` and is rounded to `129`. -/
theorem binary64_randInt_one_128 : Binary64.randInt 1 128 (1 - 1 / 2 ^ 53) = 129 := by
  have e1 : ((1 - 1 / 2 ^ 53 : ℚ) * ((128 : ℤ) : ℚ)) = 128 - 1 / 2 ^ 46 := by norm_num
  have e2 : ((128 - 1 / 2 ^ 46 : ℚ) + ((1 : ℤ) : ℚ)) = 129 - 1 / 2 ^ 46 := by norm_num
  have hb1 : binary64 (128 - 1 / 2 ^ 46) = 128 - 1 / 2 ^ 46 := by
    have he : ulpExponent (128 - 1 / 2 ^ 46) = -46 := by
      rw [ulpExponent_of_binade _ 6 (by norm_num [abs_of_pos]) (by norm_num [abs_of_pos])
        (by norm_num)]
      norm_num
    unfold binary64
    rw [he]
    norm_num [roundTiesToEven, Int.floor_eq_iff]
  have hb2 : binary64 (129 - 1 / 2 ^ 46) = 129 := by
    have he : ulpExponent (129 - 1 / 2 ^ 46) = -45 := by
      rw [ulpExponent_of_binade _ 7 (by norm_num [abs_of_pos]) (by norm_num [abs_of_pos])
        (by norm_num)]
      norm_num
    unfold binary64
    rw [he]
    norm_num [roundTiesToEven, Int.floor_eq_iff]
  unfold Binary64.randInt
  rw [e1, hb1, e2, hb2]
  norm_num

/-- At the draw `1 - 2 ^ (-53)`, `randInt(1, 256)` is `257` in binary64. -/
theorem binary64_randInt_one_256 : Binary64.randInt 1 256 (1 - 1 / 2 ^ 53) = 257 := by
  have e1 : ((1 - 1 / 2 ^ 53 : ℚ) * ((256 : ℤ) : ℚ)) = 256 - 1 / 2 ^ 45 := by norm_num
  have e2 : ((256 - 1 / 2 ^ 45 : ℚ) + ((1 : ℤ) : ℚ)) = 257 - 1 / 2 ^ 45 := by norm_num
  have hb1 : binary64 (256 - 1 / 2 ^ 45) = 256 - 1 / 2 ^ 45 := by
    have he : ulpExponent (256 - 1 / 2 ^ 45) = -45 := by
      rw [ulpExponent_of_binade _ 7 (by norm_num [abs_of_pos]) (by norm_num [abs_of_pos])
        (by norm_num)]
      norm_num
    unfold binary64
    rw [he]
    norm_num [roundTiesToEven, Int.floor_eq_iff]
  have hb2 : binary64 (257 - 1 / 2 ^ 45) = 257 := by
    have he : ulpExponent (257 - 1 / 2 ^ 45) = -44 := by
      rw [ulpExponent_of_binade _ 8 (by norm_num [abs_of_pos]) (by norm_num [abs_of_pos])
        (by norm_num)]
      norm_num
    unfold binary64
    rw [he]
    norm_num [roundTiesToEven, Int.floor_eq_iff]
  unfold Binary64.randInt
  rw [e1, hb1, e2, hb2]
  norm_num

/-- At the draw `0`, `randInt(min, max)` is `min` in binary64, for `min` equal to `0`
or `1`. -/
theorem binary64_randInt_draw_zero (max : ℤ) :
    Binary64.randInt 0 max 0 = 0 ∧ Binary64.randInt 1 max 0 = 1 := by
  unfold Binary64.randInt
  simp only [zero_mul, binary64_zero, Int.cast_zero, Int.cast_one, zero_add, binary64_one]
  norm_num

/-- C6, evaluated on the code: on a 128 x 128 canvas, with the draws `0` (coin flip) and
`1 - 2 ^ (-53)` (both binary64 numbers in `[0, 1)`), the `Snow` constructor, computed in
binary64 as the program does, starts the element at `(129, 0)` with velocity `(2, 1)`:
`x` is above the width, so the start satisfies neither `x = 0 ∧ 1 ≤ y ≤ height` nor
`y = 0 ∧ 1 ≤ x ≤ width`. -/
theorem Snow_start_beyond_width :
    (∀ i, 0 ≤ draws [0, 1 - 1 / 2 ^ 53] i ∧ draws [0, 1 - 1 / 2 ^ 53] i < 1) ∧
      binary64 (draws [0, 1 - 1 / 2 ^ 53] 0) = draws [0, 1 - 1 / 2 ^ 53] 0 ∧
      binary64 (draws [0, 1 - 1 / 2 ^ 53] 1) = draws [0, 1 - 1 / 2 ^ 53] 1 ∧
      Binary64.Snow.constructor ⟨128, 128⟩ (draws [0, 1 - 1 / 2 ^ 53])
        = ⟨.num 129, .num 0, .num 2, .num 1, .Snow⟩ ∧
      ¬ ∃ x y : ℤ,
        (Binary64.Snow.constructor ⟨128, 128⟩ (draws [0, 1 - 1 / 2 ^ 53])).x = .num x ∧
        (Binary64.Snow.constructor ⟨128, 128⟩ (draws [0, 1 - 1 / 2 ^ 53])).y = .num y ∧
        Xor' (x = 0 ∧ 1 ≤ y ∧ y ≤ ((128 : ℕ) : ℤ)) (y = 0 ∧ 1 ≤ x ∧ x ≤ ((128 : ℕ) : ℤ)) := by
  have hd0 : draws [0, 1 - 1 / 2 ^ 53] 0 = 0 := rfl
  have hd1 : draws [0, 1 - 1 / 2 ^ 53] 1 = 1 - 1 / 2 ^ 53 := rfl
  have hround : Math.round 0 = 0 := by
    norm_num [Math.round, Int.floor_eq_iff]
  have hs : Binary64.Snow.constructor ⟨128, 128⟩ (draws [0, 1 - 1 / 2 ^ 53])
      = ⟨.num 129, .num 0, .num 2, .num 1, .Snow⟩ := by
    unfold Binary64.Snow.constructor
    rw [hd0, hd1, hround, if_neg (by norm_num)]
    show Element.mk (.num ((Binary64.randInt 1 128 (1 - 1 / 2 ^ 53) : ℤ) : ℚ)) _ _ _ _ = _
    rw [binary64_randInt_one_128]
    norm_num
  refine ⟨draws_unit _ (by norm_num), ?_, ?_, hs, ?_⟩
  · rw [hd0, binary64_zero]
  · rw [hd1, binary64_pred_one]
  · rw [hs]
    rintro ⟨x, y, hx, hy, hxor⟩
    have hx2 : x = 129 := by
      have := Value.num.inj hx
      exact_mod_cast this.symm
    have hy2 : y = 0 := by
      have := Value.num.inj hy
      exact_mod_cast this.symm
    subst hx2 hy2
    rcases hxor with ⟨⟨h, -⟩, -⟩ | ⟨⟨-, -, h⟩, -⟩
    · omega
    · omega

/-- C7, evaluated on the code: on a 256 x 256 canvas, with the draws `0`,
`1 - 2 ^ (-53)`, `0` (binary64 numbers in `[0, 1)`), the `Bug` constructor, computed in
binary64 as the program does, starts the element at `(0, 257)` with `dx = 1`, cursor `0`
and `dy = 0`: `y` is above the height, so not in `1 .. height`. -/
theorem Bug_start_beyond_height :
    (∀ i, 0 ≤ draws [0, 1 - 1 / 2 ^ 53, 0] i ∧ draws [0, 1 - 1 / 2 ^ 53, 0] i < 1) ∧
      (∀ i, binary64 (draws [0, 1 - 1 / 2 ^ 53, 0] i) = draws [0, 1 - 1 / 2 ^ 53, 0] i) ∧
      Binary64.Bug.constructor ⟨256, 256⟩ (draws [0, 1 - 1 / 2 ^ 53, 0])
        = ⟨.num 0, .num 257, .num 1, .num 0, .Bug [0, 1, 2, 1, 0, -1, -2, -1] 0⟩ ∧
      ¬ ∃ y : ℤ,
        (Binary64.Bug.constructor ⟨256, 256⟩ (draws [0, 1 - 1 / 2 ^ 53, 0])).y = .num y ∧
        1 ≤ y ∧ y ≤ ((256 : ℕ) : ℤ) := by
  have hd0 : draws [0, 1 - 1 / 2 ^ 53, 0] 0 = 0 := rfl
  have hd1 : draws [0, 1 - 1 / 2 ^ 53, 0] 1 = 1 - 1 / 2 ^ 53 := rfl
  have hd2 : draws [0, 1 - 1 / 2 ^ 53, 0] 2 = 0 := rfl
  have hb : Binary64.Bug.constructor ⟨256, 256⟩ (draws [0, 1 - 1 / 2 ^ 53, 0])
      = ⟨.num 0, .num 257, .num 1, .num 0, .Bug [0, 1, 2, 1, 0, -1, -2, -1] 0⟩ := by
    unfold Binary64.Bug.constructor
    rw [hd0, hd1, hd2]
    show Element.mk _ (.num ((Binary64.randInt 1 256 (1 - 1 / 2 ^ 53) : ℤ) : ℚ))
      (.num ((Binary64.randInt 1 6 0 : ℤ) : ℚ)) (index dyLoop (Binary64.randInt 0 8 0))
      (.Bug dyLoop (Binary64.randInt 0 8 0)) = _
    rw [binary64_randInt_one_256, (binary64_randInt_draw_zero 6).2,
      (binary64_randInt_draw_zero 8).1]
    norm_num [index, dyLoop]
  refine ⟨draws_unit _ (by norm_num), ?_, hb, ?_⟩
  · intro i
    match i with
    | 0 => rw [hd0, binary64_zero]
    | 1 => rw [hd1, binary64_pred_one]
    | (j + 2) =>
      have : draws [0, 1 - 1 / 2 ^ 53, 0] (j + 2) = 0 := by
        cases j <;> simp [draws]
      rw [this, binary64_zero]
  · rw [hb]
    rintro ⟨y, hy, -, hle⟩
    have hy2 : y = 257 := by
      have := Value.num.inj hy
      exact_mod_cast this.symm
    omega

/-! ## Ticks -/

/-- C1, evaluated on the code: the `Snow` built on a 100 x 100 canvas from the draws `0`
and `63/64` starts at `(99, 0)`.  Its first tick moves it to `(101, 1)`, out of bounds
(`x > 100`), and draws nothing.  The second tick still moves it, to `(103, 2)`: the
position of an out-of-bounds element is not left unchanged by later ticks. -/
theorem doFrame_moves_after_out_of_bounds :
    Snow.constructor ⟨100, 100⟩ (draws [0, 63 / 64])
        = ⟨.num 99, .num 0, .num 2, .num 1, .Snow⟩ ∧
      ticks ⟨100, 100⟩ 1 (Snow.constructor ⟨100, 100⟩ (draws [0, 63 / 64]))
        = ⟨.num 101, .num 1, .num 2, .num 1, .Snow⟩ ∧
      outOfBounds ⟨100, 100⟩
        (ticks ⟨100, 100⟩ 1 (Snow.constructor ⟨100, 100⟩ (draws [0, 63 / 64]))) = true ∧
      drawnAt ⟨100, 100⟩ 0 (Snow.constructor ⟨100, 100⟩ (draws [0, 63 / 64])) = [] ∧
      ticks ⟨100, 100⟩ 2 (Snow.constructor ⟨100, 100⟩ (draws [0, 63 / 64]))
        = ⟨.num 103, .num 2, .num 2, .num 1, .Snow⟩ := by
  have hs : Snow.constructor ⟨100, 100⟩ (draws [0, 63 / 64])
      = ⟨.num 99, .num 0, .num 2, .num 1, .Snow⟩ := by
    norm_num [Snow.constructor, Math.round, draws, randInt, Int.floor_eq_iff]
  simp only [hs]
  norm_num [ticks, drawnAt, Element.doFrame, Element.dorender, deleteDoFrame, outOfBounds,
    Value.num_add_num, Value.gt_num]

/-- The first tick of a new `Bug` leaves `dy` as the constructor set it: when the tick
draws, `dorender` reads the table at the cursor the constructor has already used. -/
theorem Bug_first_tick_dy (canvas : Canvas) (random : ℕ → ℚ) :
    ((Bug.constructor canvas random).doFrame canvas).1.dy
      = (Bug.constructor canvas random).dy := by
  unfold Element.doFrame deleteDoFrame Element.dorender Bug.constructor
  simp only
  split <;> rfl

/-- C2, evaluated on the code: the `Bug` built on a 100 x 100 canvas from the draws `0`,
`0.5`, `0` starts at `(0, 51)` with `dx = 1` and cursor `0`.  It stays in bounds during
its first three ticks, and the values of `dy` added to `y` by these ticks are `0`, `0`, `1`:
the table entry at the starting cursor is used by two consecutive ticks, so the values do
not follow the table `[0, 1, 2, 1, 0, -1, -2, -1]` cyclically from any start index. -/
theorem Bug_dy_not_cyclic :
    Bug.constructor ⟨100, 100⟩ (draws [0, 1 / 2, 0])
        = ⟨.num 0, .num 51, .num 1, .num 0, .Bug [0, 1, 2, 1, 0, -1, -2, -1] 0⟩ ∧
      (∀ k, k ≤ 2 → outOfBounds ⟨100, 100⟩
        (ticks ⟨100, 100⟩ (k + 1) (Bug.constructor ⟨100, 100⟩ (draws [0, 1 / 2, 0])))
          = false) ∧
      (ticks ⟨100, 100⟩ 0 (Bug.constructor ⟨100, 100⟩ (draws [0, 1 / 2, 0]))).dy = .num 0 ∧
      (ticks ⟨100, 100⟩ 1 (Bug.constructor ⟨100, 100⟩ (draws [0, 1 / 2, 0]))).dy = .num 0 ∧
      (ticks ⟨100, 100⟩ 2 (Bug.constructor ⟨100, 100⟩ (draws [0, 1 / 2, 0]))).dy = .num 1 ∧
      ¬ ∃ s : ℕ, ∀ k, k ≤ 2 →
        (ticks ⟨100, 100⟩ k (Bug.constructor ⟨100, 100⟩ (draws [0, 1 / 2, 0]))).dy
          = index [0, 1, 2, 1, 0, -1, -2, -1] (((s + k) % 8 : ℕ) : ℤ) := by
  have hb : Bug.constructor ⟨100, 100⟩ (draws [0, 1 / 2, 0])
      = ⟨.num 0, .num 51, .num 1, .num 0, .Bug [0, 1, 2, 1, 0, -1, -2, -1] 0⟩ := by
    norm_num [Bug.constructor, draws, randInt, Int.floor_eq_iff, dyLoop, index]
  have h1 : ticks ⟨100, 100⟩ 1 ⟨.num 0, .num 51, .num 1, .num 0,
      .Bug [0, 1, 2, 1, 0, -1, -2, -1] 0⟩
      = ⟨.num 1, .num 51, .num 1, .num 0, .Bug [0, 1, 2, 1, 0, -1, -2, -1] 1⟩ := by
    norm_num [ticks, Element.doFrame, Element.dorender, deleteDoFrame,
      Value.num_add_num, Value.gt_num, index, Int.tmod, Int.toNat]
  have h2 : ticks ⟨100, 100⟩ 2 ⟨.num 0, .num 51, .num 1, .num 0,
      .Bug [0, 1, 2, 1, 0, -1, -2, -1] 0⟩
      = ⟨.num 2, .num 51, .num 1, .num 1, .Bug [0, 1, 2, 1, 0, -1, -2, -1] 2⟩ := by
    norm_num [ticks, Element.doFrame, Element.dorender, deleteDoFrame,
      Value.num_add_num, Value.gt_num, index, Int.tmod, Int.toNat]
  have h3 : ticks ⟨100, 100⟩ 3 ⟨.num 0, .num 51, .num 1, .num 0,
      .Bug [0, 1, 2, 1, 0, -1, -2, -1] 0⟩
      = ⟨.num 3, .num 52, .num 1, .num 2, .Bug [0, 1, 2, 1, 0, -1, -2, -1] 3⟩ := by
    norm_num [ticks, Element.doFrame, Element.dorender, deleteDoFrame,
      Value.num_add_num, Value.gt_num, index, Int.tmod, Int.toNat]
  rw [hb]
  refine ⟨rfl, ?_, rfl, by rw [h1], by rw [h2], ?_⟩
  · intro k hk
    interval_cases k
    · rw [h1]; norm_num [outOfBounds, Value.gt_num]
    · rw [h2]; norm_num [outOfBounds, Value.gt_num]
    · rw [h3]; norm_num [outOfBounds, Value.gt_num]
  · rintro ⟨s, hs⟩
    have e0 := hs 0 (by norm_num)
    have e1 := hs 1 (by norm_num)
    rw [h1] at e1
    simp only [ticks, add_zero] at e0
    have hlt : s % 8 < 8 := Nat.mod_lt _ (by norm_num)
    have hmod : (s + 1) % 8 = (s % 8 + 1) % 8 := by omega
    rw [hmod] at e1
    generalize s % 8 = t at e0 e1 hlt
    interval_cases t <;> simp [index] at e0 e1

/-! ## The frame loop and the controls -/

/-- The loop over `canvasElements` replaces every element by its ticked version, in
order. -/
theorem forEachDoFrame_fst (canvas : Canvas) (els : List Element) :
    (forEachDoFrame canvas els).1 = els.map (fun el => (el.doFrame canvas).1) := by
  induction els with
  | nil => rfl
  | cons el rest ih => simp [forEachDoFrame, ih]

/-- The drawing calls of the loop are those of the single ticks, in order. -/
theorem forEachDoFrame_snd (canvas : Canvas) (els : List Element) :
    (forEachDoFrame canvas els).2 = (els.map (fun el => (el.doFrame canvas).2)).flatten := by
  induction els with
  | nil => rfl
  | cons el rest ih => simp [forEachDoFrame, ih]

/-- The object built by `new type()` is of class `type`. -/
theorem construct_type (type : ElementType) (canvas : Canvas) (random : ℕ → ℚ) :
    (construct type canvas random).sub.type = some type := by
  cases type
  · unfold construct Snow.constructor
    simp only
    split <;> rfl
  · rfl
  · rfl

/-- A frame in the running state: the canvas is cleared, every element is ticked and
drawn in order, and one new element is appended. -/
theorem onFrame_of_running (st : State) (random : ℕ → ℚ) (h : st.paused = false) :
    onFrame st random =
      { st with
        ctx := st.ctx ++ [.clearRect (.num 0) (.num 0) (.num st.canvas.width)
          (.num st.canvas.height)] ++ (forEachDoFrame st.canvas st.canvasElements).2,
        canvasElements := st.canvasElements.map (fun el => (el.doFrame st.canvas).1)
          ++ [construct st.selection st.canvas random] } := by
  unfold onFrame
  simp [h, forEachDoFrame_fst]

/-- A frame in the paused state does nothing. -/
theorem onFrame_of_paused (st : State) (random : ℕ → ℚ) (h : st.paused = true) :
    onFrame st random = st := by
  unfold onFrame
  simp [h]

/-- A tick adds the velocity to the position, whether or not the element is then drawn. -/
theorem doFrame_position (canvas : Canvas) (el : Element) :
    (el.doFrame canvas).1.x = el.x + el.dx ∧ (el.doFrame canvas).1.y = el.y + el.dy := by
  unfold Element.doFrame deleteDoFrame Element.dorender
  simp only
  split
  · exact ⟨rfl, rfl⟩
  · split <;> exact ⟨rfl, rfl⟩

/-- C8: in a running state with `n` elements, one `onFrame` step yields a collection whose
first `n` entries are the previous elements in the same order, each ticked once, and whose
last entry is a new, not yet ticked element of the selected class, so that its length is
`n + 1`.  Scenario: starting from the initial state (running, `Snow` selected, empty
collection) on a 100 x 100 canvas, for all random draws, the collection after frame 1 is
the one new `Snow`, and after frame 2 it has two entries, the first being that `Snow` with
`x` advanced by `2` and `y` by `1`, the second a new `Snow`. -/
theorem onFrame_running_spec (st : State) (random : ℕ → ℚ) (h : st.paused = false) :
    ((onFrame st random).canvasElements
        = st.canvasElements.map (fun el => (el.doFrame st.canvas).1)
          ++ [construct st.selection st.canvas random] ∧
      (onFrame st random).canvasElements.length = st.canvasElements.length + 1 ∧
      (construct st.selection st.canvas random).sub.type = some st.selection) ∧
    ∀ (label : String) (randoms : ℕ → ℕ → ℚ),
      (onFrames (initial ⟨100, 100⟩ label) randoms 1).canvasElements
        = [Snow.constructor ⟨100, 100⟩ (randoms 0)] ∧
      ∃ first : Element,
        (onFrames (initial ⟨100, 100⟩ label) randoms 2).canvasElements
          = [first, Snow.constructor ⟨100, 100⟩ (randoms 1)] ∧
        first.x = (Snow.constructor ⟨100, 100⟩ (randoms 0)).x + .num 2 ∧
        first.y = (Snow.constructor ⟨100, 100⟩ (randoms 0)).y + .num 1 ∧
        first.dx = .num 2 ∧ first.dy = .num 1 := by
  refine ⟨⟨?_, ?_, construct_type _ _ _⟩, ?_⟩
  · rw [onFrame_of_running st random h]
  · rw [onFrame_of_running st random h]
    simp
  · intro label randoms
    have e1 : onFrames (initial ⟨100, 100⟩ label) randoms 1
        = { initial ⟨100, 100⟩ label with
            ctx := [.clearRect (.num 0) (.num 0) (.num 100) (.num 100)],
            canvasElements := [Snow.constructor ⟨100, 100⟩ (randoms 0)] } := by
      simp [onFrames, onFrame, initial, forEachDoFrame, construct]
    refine ⟨by rw [e1], ((Snow.constructor ⟨100, 100⟩ (randoms 0)).doFrame ⟨100, 100⟩).1, ?_, ?_⟩
    · show (onFrame (onFrames (initial ⟨100, 100⟩ label) randoms 1) (randoms 1)).canvasElements
        = _
      rw [e1, onFrame_of_running _ _ rfl]
      simp [initial, construct]
    · have hp := doFrame_position ⟨100, 100⟩ (Snow.constructor ⟨100, 100⟩ (randoms 0))
      have hv : (Snow.constructor ⟨100, 100⟩ (randoms 0)).dx = .num 2 ∧
          (Snow.constructor ⟨100, 100⟩ (randoms 0)).dy = .num 1 := by
        unfold Snow.constructor
        split <;> exact ⟨rfl, rfl⟩
      have hk : ((Snow.constructor ⟨100, 100⟩ (randoms 0)).doFrame ⟨100, 100⟩).1.dx
            = (Snow.constructor ⟨100, 100⟩ (randoms 0)).dx ∧
          ((Snow.constructor ⟨100, 100⟩ (randoms 0)).doFrame ⟨100, 100⟩).1.dy
            = (Snow.constructor ⟨100, 100⟩ (randoms 0)).dy := by
        have hsub : (Snow.constructor ⟨100, 100⟩ (randoms 0)).sub = .Snow := by
          unfold Snow.constructor
          split <;> rfl
        unfold Element.doFrame deleteDoFrame Element.dorender
        simp only [hsub]
        split <;> exact ⟨rfl, rfl⟩
      rw [hp.1, hp.2, hk.1, hk.2, hv.1, hv.2]
      exact ⟨rfl, rfl, rfl, rfl⟩

/-- Witness of C8: the initial state on a 100 x 100 canvas, with the draws `0.5`, `0.25`. -/
theorem onFrame_running_spec_witness :
    (initial ⟨100, 100⟩ "Pause").paused = false ∧
      (onFrame (initial ⟨100, 100⟩ "Pause") (draws [1 / 2, 1 / 4])).canvasElements.length
        = (initial ⟨100, 100⟩ "Pause").canvasElements.length + 1 :=
  ⟨rfl, (onFrame_running_spec (initial ⟨100, 100⟩ "Pause") (draws [1 / 2, 1 / 4]) rfl).1.2.1⟩

/-- C9: in a paused state, `k` successive `onFrame` steps, for every `k` and whatever the
random draws, leave the whole state unchanged: the collection and each of its elements
(position, velocity, cursor), the selected class, the paused flag, and the list of drawing
calls (nothing is drawn or cleared). -/
theorem onFrames_paused (st : State) (randoms : ℕ → ℕ → ℚ) (k : ℕ) (h : st.paused = true) :
    onFrames st randoms k = st := by
  induction k with
  | zero => rfl
  | succ k ih =>
    show onFrame (onFrames st randoms k) (randoms k) = st
    rw [ih, onFrame_of_paused st _ h]

/-- Witness of C9: a paused state holding one `Bug`, over three frames. -/
theorem onFrames_paused_witness :
    (State.mk true .Bug [⟨.num 3, .num 51, .num 1, .num 2, .Bug dyLoop 3⟩] ⟨100, 100⟩
        "Unpause" []).paused = true ∧
      onFrames (State.mk true .Bug [⟨.num 3, .num 51, .num 1, .num 2, .Bug dyLoop 3⟩]
        ⟨100, 100⟩ "Unpause" []) (fun _ => draws [1 / 2, 1 / 4, 3 / 4]) 3
        = State.mk true .Bug [⟨.num 3, .num 51, .num 1, .num 2, .Bug dyLoop 3⟩] ⟨100, 100⟩
          "Unpause" [] :=
  ⟨rfl, onFrames_paused _ _ 3 rfl⟩

/-- C10: `onChangeType(type)` sets the selected class to `type`, empties the collection and
leaves the paused flag (and everything else) unchanged; if the state is running, the next
`onFrame` step leaves a collection of length 1 whose only element is a new element of class
`type`. -/
theorem onChangeType_spec (st : State) (type : ElementType) :
    (onChangeType st type).selection = type ∧
      (onChangeType st type).canvasElements = [] ∧
      (onChangeType st type).paused = st.paused ∧
      onChangeType st type = { st with selection := type, canvasElements := [] } ∧
      (st.paused = false → ∀ random : ℕ → ℚ,
        (onFrame (onChangeType st type) random).canvasElements
          = [construct type st.canvas random] ∧
        (onFrame (onChangeType st type) random).canvasElements.length = 1 ∧
        (construct type st.canvas random).sub.type = some type) := by
  refine ⟨rfl, rfl, rfl, rfl, ?_⟩
  intro h random
  have e : (onFrame (onChangeType st type) random).canvasElements
      = [construct type st.canvas random] := by
    rw [onFrame_of_running _ _ (show (onChangeType st type).paused = false from h)]
    simp [onChangeType]
  exact ⟨e, by rw [e]; rfl, construct_type _ _ _⟩

/-- Witness of C10: switching to `Rain` in a running state that holds one `Snow`. -/
theorem onChangeType_spec_witness :
    (State.mk false .Snow [⟨.num 2, .num 1, .num 2, .num 1, .Snow⟩] ⟨100, 100⟩
        "Pause" []).paused = false ∧
      (onFrame (onChangeType (State.mk false .Snow [⟨.num 2, .num 1, .num 2, .num 1, .Snow⟩]
        ⟨100, 100⟩ "Pause" []) .Rain) (draws [1 / 2, 1 / 4, 3 / 4])).canvasElements.length
        = 1 :=
  ⟨rfl, ((onChangeType_spec (State.mk false .Snow [⟨.num 2, .num 1, .num 2, .num 1, .Snow⟩]
    ⟨100, 100⟩ "Pause" []) .Rain).2.2.2.2 rfl (draws [1 / 2, 1 / 4, 3 / 4])).2.1⟩

/-- C11, as stated, fails on the label: in the initial state with a pause button whose
value is the empty string, two calls of `onPauseChange` restore the paused flag but leave
the button with the value `Pause`, not with its original value. -/
theorem onPauseChange_twice_label_counterexample :
    (onPauseChange (onPauseChange (initial ⟨100, 100⟩ ""))).paused
        = (initial ⟨100, 100⟩ "").paused ∧
      (onPauseChange (onPauseChange (initial ⟨100, 100⟩ ""))).pauseButton = "Pause" ∧
      (onPauseChange (onPauseChange (initial ⟨100, 100⟩ ""))).pauseButton
        ≠ (initial ⟨100, 100⟩ "").pauseButton := by
  refine ⟨rfl, rfl, ?_⟩
  show ("Pause" : String) ≠ ""
  decide

/-- C11, amended: `onPauseChange` negates the paused flag, sets the button label to
`Unpause` exactly when the new state is paused and to `Pause` exactly when it is running,
and leaves the collection, the selected class, the canvas and the drawing calls unchanged.
Two calls restore the paused flag and give the label that matches it; they restore the
original label, and then the whole state, when the original label matched the original
flag, as it does after any call of `onPauseChange`. -/
theorem onPauseChange_spec (st : State) :
    (onPauseChange st).paused = !st.paused ∧
      ((onPauseChange st).pauseButton = "Unpause" ↔ (onPauseChange st).paused = true) ∧
      ((onPauseChange st).pauseButton = "Pause" ↔ (onPauseChange st).paused = false) ∧
      (onPauseChange st).canvasElements = st.canvasElements ∧
      (onPauseChange st).selection = st.selection ∧
      (onPauseChange st).canvas = st.canvas ∧
      (onPauseChange st).ctx = st.ctx ∧
      (onPauseChange (onPauseChange st)).paused = st.paused ∧
      (onPauseChange (onPauseChange st)).pauseButton = pauseLabel st.paused ∧
      (st.pauseButton = pauseLabel st.paused → onPauseChange (onPauseChange st) = st) ∧
      onPauseChange (onPauseChange (onPauseChange st)) = onPauseChange st := by
  obtain ⟨paused, selection, canvasElements, canvas, pauseButton, ctx⟩ := st
  cases paused
  · refine ⟨rfl, ?_, ?_, rfl, rfl, rfl, rfl, rfl, rfl, ?_, rfl⟩
    · simp [onPauseChange]
    · simp [onPauseChange]
    · intro h
      simp only [pauseLabel] at h
      simp [onPauseChange, h]
  · refine ⟨rfl, ?_, ?_, rfl, rfl, rfl, rfl, rfl, rfl, ?_, rfl⟩
    · simp [onPauseChange]
    · simp [onPauseChange]
    · intro h
      simp only [pauseLabel] at h
      simp [onPauseChange, h]

/-- Witness of C11: the initial state with the button labelled `Pause`. -/
theorem onPauseChange_spec_witness :
    (initial ⟨100, 100⟩ "Pause").pauseButton = pauseLabel (initial ⟨100, 100⟩ "Pause").paused ∧
      onPauseChange (onPauseChange (initial ⟨100, 100⟩ "Pause")) = initial ⟨100, 100⟩ "Pause" :=
  ⟨rfl, (onPauseChange_spec (initial ⟨100, 100⟩ "Pause")).2.2.2.2.2.2.2.2.2.1 rfl⟩

/-! ## One tick -/

/-- A tick is the move followed by the test on the new position: out of bounds, nothing
else happens; otherwise `dorender` is called on the moved object. -/
theorem doFrame_eq (canvas : Canvas) (el : Element) :
    el.doFrame canvas
      = if outOfBounds canvas el.moved then (el.moved, []) else el.moved.dorender := rfl

/-- The draw routine does not move the object. -/
theorem dorender_position (el : Element) :
    el.dorender.1.x = el.x ∧ el.dorender.1.y = el.y ∧ el.dorender.1.dx = el.dx := by
  unfold Element.dorender
  split <;> exact ⟨rfl, rfl, rfl⟩

/-- The draw routine of `Snow`, `Rain` and `Bug` issues at least one drawing call. -/
theorem dorender_draws (el : Element) (h : el.sub ≠ .Element) : el.dorender.2 ≠ [] := by
  unfold Element.dorender
  split
  · rename_i heq
    exact absurd heq h
  · simp
  · simp
  · simp

/-- The test of `doFrame` on a numeric position. -/
theorem outOfBounds_num (canvas : Canvas) (x y : ℚ) (dx dy : Value) (sub : Subclass) :
    outOfBounds canvas ⟨.num x, .num y, dx, dy, sub⟩ = false
      ↔ x ≤ canvas.width ∧ y ≤ canvas.height := by
  simp [outOfBounds, Value.gt_num]

/-- C12: for an element with numeric position `(x, y)` and velocity `(dx, dy)`, of any
class, and any canvas size, one tick sets `x := x + dx`, `y := y + dy` and then calls the
draw routine of the class once, on the moved element, if and only if `x + dx ≤ width` and
`y + dy ≤ height`; otherwise it calls nothing and draws nothing.  The draw routines of
`Snow`, `Rain` and `Bug` issue drawing calls and keep the position.  Only upper bounds are
tested: when a new coordinate is negative and both are within the upper bounds, the draw
routine is still called, and the same holds again at the next tick. -/
theorem doFrame_spec (canvas : Canvas) (x y dx dy : ℚ) (sub : Subclass) :
    (Element.doFrame canvas ⟨.num x, .num y, .num dx, .num dy, sub⟩
        = if x + dx ≤ canvas.width ∧ y + dy ≤ canvas.height then
            (Element.mk (.num (x + dx)) (.num (y + dy)) (.num dx) (.num dy) sub).dorender
          else (⟨.num (x + dx), .num (y + dy), .num dx, .num dy, sub⟩, [])) ∧
      (Element.doFrame canvas ⟨.num x, .num y, .num dx, .num dy, sub⟩).1.x = .num (x + dx) ∧
      (Element.doFrame canvas ⟨.num x, .num y, .num dx, .num dy, sub⟩).1.y = .num (y + dy) ∧
      (sub ≠ .Element →
        (Element.mk (.num (x + dx)) (.num (y + dy)) (.num dx) (.num dy) sub).dorender.2 ≠ []) ∧
      ((x + dx < 0 ∨ y + dy < 0) → x + dx ≤ canvas.width → y + dy ≤ canvas.height →
        Element.doFrame canvas ⟨.num x, .num y, .num dx, .num dy, sub⟩
          = (Element.mk (.num (x + dx)) (.num (y + dy)) (.num dx) (.num dy) sub).dorender) := by
  have hm : (Element.mk (.num x) (.num y) (.num dx) (.num dy) sub).moved
      = ⟨.num (x + dx), .num (y + dy), .num dx, .num dy, sub⟩ := rfl
  have key : Element.doFrame canvas ⟨.num x, .num y, .num dx, .num dy, sub⟩
      = if x + dx ≤ canvas.width ∧ y + dy ≤ canvas.height then
          (Element.mk (.num (x + dx)) (.num (y + dy)) (.num dx) (.num dy) sub).dorender
        else (⟨.num (x + dx), .num (y + dy), .num dx, .num dy, sub⟩, []) := by
    rw [doFrame_eq, hm]
    by_cases hb : x + dx ≤ canvas.width ∧ y + dy ≤ canvas.height
    · rw [if_pos hb, (outOfBounds_num canvas _ _ _ _ _).mpr hb]
      rfl
    · rw [if_neg hb]
      have : outOfBounds canvas ⟨.num (x + dx), .num (y + dy), .num dx, .num dy, sub⟩
          = true := by
        cases hc : outOfBounds canvas ⟨.num (x + dx), .num (y + dy), .num dx, .num dy, sub⟩
        · exact absurd ((outOfBounds_num canvas _ _ _ _ _).mp hc) hb
        · rfl
      rw [this]
      rfl
  have hp := doFrame_position canvas ⟨.num x, .num y, .num dx, .num dy, sub⟩
  refine ⟨key, hp.1, hp.2, fun h => dorender_draws _ h, ?_⟩
  intro _ hx hy
  rw [key, if_pos ⟨hx, hy⟩]

/-- Witness of C12: a `Snow` at `(-10, 3)` with velocity `(2, 1)` on a 100 x 100 canvas
moves to `(-8, 4)` and is drawn there. -/
theorem doFrame_spec_witness :
    ((-10 : ℚ) + 2 < 0 ∨ (3 : ℚ) + 1 < 0) ∧ (-10 : ℚ) + 2 ≤ ((100 : ℕ) : ℚ) ∧
      (3 : ℚ) + 1 ≤ ((100 : ℕ) : ℚ) ∧
      Element.doFrame ⟨100, 100⟩ ⟨.num (-10), .num 3, .num 2, .num 1, .Snow⟩
        = (Element.mk (.num (-10 + 2)) (.num (3 + 1)) (.num 2) (.num 1) .Snow).dorender :=
  ⟨by norm_num, by norm_num, by norm_num,
    (doFrame_spec ⟨100, 100⟩ (-10) 3 2 1 .Snow).2.2.2.2 (by norm_num) (by norm_num)
      (by norm_num)⟩

/-! ## Invariants of the constructed elements -/

/-- The last of `n + 1` ticks is a tick of the element reached after `n` ticks. -/
theorem ticks_succ_last (canvas : Canvas) (n : ℕ) (el : Element) :
    ticks canvas (n + 1) el = ((ticks canvas n el).doFrame canvas).1 := by
  induction n generalizing el with
  | zero => rfl
  | succ n ih =>
    show ticks canvas (n + 1) (el.doFrame canvas).1 = _
    rw [ih]
    rfl

/-- Reading the table at a cursor in `0 .. 7` gives an entry of the table. -/
theorem index_dyLoop (c : ℤ) (h0 : 0 ≤ c) (h7 : c ≤ 7) :
    ∃ v : ℤ, dyLoop[c.toNat]? = some v ∧ index dyLoop c = .num v ∧ v ∈ dyLoop := by
  interval_cases c <;> simp [index, dyLoop]

/-- Advancing a cursor in `0 .. 7` gives a cursor in `0 .. 7`. -/
theorem cursor_next (c : ℤ) (h0 : 0 ≤ c) (h7 : c ≤ 7) :
    0 ≤ Int.tmod (c + 1) dyLoop.length ∧ Int.tmod (c + 1) dyLoop.length ≤ 7 := by
  interval_cases c <;> simp [dyLoop, Int.tmod]

/-- A new `Bug` built from a cursor draw in `[0, 1)` satisfies `BugInv`. -/
theorem BugInv_constructor (canvas : Canvas) (random : ℕ → ℚ)
    (h0 : 0 ≤ random 0 ∧ random 0 < 1) : BugInv (Bug.constructor canvas random) := by
  have hc := randInt_range 0 8 (random 0) (by norm_num) h0.1 h0.2
  have hc0 : 0 ≤ randInt 0 8 (random 0) := hc.1
  have hc7 : randInt 0 8 (random 0) ≤ 7 := by have := hc.2; omega
  obtain ⟨v, -, hv, hmem⟩ := index_dyLoop _ hc0 hc7
  exact ⟨randInt 0 8 (random 0), v, rfl, hc0, hc7, hv, hmem⟩

/-- A tick preserves `BugInv`, in bounds or not. -/
theorem BugInv_doFrame (canvas : Canvas) (el : Element) (h : BugInv el) :
    BugInv (el.doFrame canvas).1 := by
  obtain ⟨c, v, hsub, h0, h7, hdy, hmem⟩ := h
  rw [doFrame_eq]
  split
  · exact ⟨c, v, hsub, h0, h7, hdy, hmem⟩
  · have hsub2 : el.moved.sub = .Bug dyLoop c := hsub
    obtain ⟨w, -, hw, hwmem⟩ := index_dyLoop c h0 h7
    have hn := cursor_next c h0 h7
    unfold Element.dorender
    simp only [hsub2]
    exact ⟨_, w, rfl, hn.1, hn.2, hw, hwmem⟩

/-- Any number of ticks preserves `BugInv`. -/
theorem BugInv_ticks (canvas : Canvas) (n : ℕ) (el : Element) (h : BugInv el) :
    BugInv (ticks canvas n el) := by
  induction n generalizing el with
  | zero => exact h
  | succ n ih => exact ih _ (BugInv_doFrame canvas el h)

/-- C14: for every `Bug` built by the constructor from a cursor draw in `[0, 1)`, on any
canvas, after any number `n` of ticks the object still carries the table
`[0, 1, 2, 1, 0, -1, -2, -1]`, `curDyIndex` is an integer in `0 .. 7`, `dy` is one of
`-2, -1, 0, 1, 2`, and the read `dyLoop[curDyIndex]` that `dorender` makes in this state
is inside the table: it yields a number, not `undefined`. -/
theorem Bug_cursor_in_table (canvas : Canvas) (random : ℕ → ℚ)
    (h0 : 0 ≤ random 0 ∧ random 0 < 1) (n : ℕ) :
    ∃ c v w : ℤ,
      (ticks canvas n (Bug.constructor canvas random)).sub
        = .Bug [0, 1, 2, 1, 0, -1, -2, -1] c ∧
      0 ≤ c ∧ c ≤ 7 ∧
      (ticks canvas n (Bug.constructor canvas random)).dy = .num v ∧
      (v = -2 ∨ v = -1 ∨ v = 0 ∨ v = 1 ∨ v = 2) ∧
      [0, 1, 2, 1, 0, -1, -2, -1][c.toNat]? = some w ∧
      index [0, 1, 2, 1, 0, -1, -2, -1] c = .num w := by
  obtain ⟨c, v, hsub, hc0, hc7, hdy, hmem⟩ :=
    BugInv_ticks canvas n _ (BugInv_constructor canvas random h0)
  obtain ⟨w, hw, hiw, -⟩ := index_dyLoop c hc0 hc7
  refine ⟨c, v, w, hsub, hc0, hc7, hdy, ?_, hw, hiw⟩
  simp only [dyLoop, List.mem_cons, List.mem_singleton, List.not_mem_nil, or_false] at hmem
  omega

/-- Witness of C14: the `Bug` built on a 100 x 100 canvas from the draws `0.5`, `0.25`,
`0.75`, after ten ticks. -/
theorem Bug_cursor_in_table_witness :
    (0 ≤ draws [1 / 2, 1 / 4, 3 / 4] 0 ∧ draws [1 / 2, 1 / 4, 3 / 4] 0 < 1) ∧
      ∃ c v w : ℤ,
        (ticks ⟨100, 100⟩ 10 (Bug.constructor ⟨100, 100⟩ (draws [1 / 2, 1 / 4, 3 / 4]))).sub
          = .Bug [0, 1, 2, 1, 0, -1, -2, -1] c ∧
        0 ≤ c ∧ c ≤ 7 ∧
        (ticks ⟨100, 100⟩ 10 (Bug.constructor ⟨100, 100⟩ (draws [1 / 2, 1 / 4, 3 / 4]))).dy
          = .num v ∧
        (v = -2 ∨ v = -1 ∨ v = 0 ∨ v = 1 ∨ v = 2) ∧
        [0, 1, 2, 1, 0, -1, -2, -1][c.toNat]? = some w ∧
        index [0, 1, 2, 1, 0, -1, -2, -1] c = .num w :=
  ⟨draws_unit _ (by norm_num) 0,
    Bug_cursor_in_table ⟨100, 100⟩ (draws [1 / 2, 1 / 4, 3 / 4])
      (draws_unit _ (by norm_num) 0) 10⟩

/-- The position after a tick is the moved position, whether `dorender` ran or not. -/
theorem outOfBounds_doFrame (canvas : Canvas) (el : Element) :
    outOfBounds canvas (el.doFrame canvas).1 = outOfBounds canvas el.moved := by
  have hp := doFrame_position canvas el
  unfold outOfBounds
  rw [hp.1, hp.2]
  rfl

/-- A tick that finds the element out of bounds only moves it and draws nothing. -/
theorem doFrame_of_out (canvas : Canvas) (el : Element)
    (h : outOfBounds canvas el.moved = true) : el.doFrame canvas = (el.moved, []) := by
  rw [doFrame_eq, if_pos h]

/-- A tick preserves `NoReturn`. -/
theorem NoReturn_doFrame (canvas : Canvas) (el : Element) (h : NoReturn canvas el) :
    NoReturn canvas (el.doFrame canvas).1 := by
  obtain ⟨x, y, dx, dy, hel, hdx, hy, hcls⟩ := h
  have hbug := BugInv_doFrame canvas el
  obtain ⟨ex, ey, edx, edy, sub⟩ := el
  simp only [Element.mk.injEq, and_true] at hel
  obtain ⟨rfl, rfl, rfl, rfl⟩ := hel
  have hy2 : (canvas.height : ℚ) < y + dy → 0 ≤ dy := by
    intro hlt
    by_contra hneg
    push_neg at hneg
    have := hy (by linarith)
    linarith
  rw [doFrame_eq]
  by_cases hout : outOfBounds canvas (Element.mk (.num x) (.num y) (.num dx) (.num dy) sub).moved
      = true
  · rw [if_pos hout]
    refine ⟨x + dx, y + dy, dx, dy, rfl, hdx, hy2, ?_⟩
    cases sub with
    | Element => exact hcls
    | Snow => exact hcls
    | Rain len => exact hcls
    | Bug t c =>
      obtain ⟨c2, v, hsub, h0, h7, hdy, hmem⟩ := hcls
      exact ⟨c2, v, hsub, h0, h7, hdy, hmem⟩
  · rw [if_neg hout]
    have hin : x + dx ≤ canvas.width ∧ y + dy ≤ canvas.height := by
      apply (outOfBounds_num canvas (x + dx) (y + dy) (.num dx) (.num dy) sub).mp
      cases hc : outOfBounds canvas ⟨.num (x + dx), .num (y + dy), .num dx, .num dy, sub⟩
      · rfl
      · exact absurd hc hout
    cases sub with
    | Element => exact hcls.elim
    | Snow => exact ⟨x + dx, y + dy, dx, dy, rfl, hdx, hy2, hcls⟩
    | Rain len => exact ⟨x + dx, y + dy, dx, dy, rfl, hdx, hy2, hcls⟩
    | Bug t c =>
      have hb := hbug hcls
      rw [doFrame_eq, if_neg hout] at hb
      obtain ⟨c2, v, hsub, h0, h7, hdy, hmem⟩ := hb
      refine ⟨x + dx, y + dy, dx, v, ?_, hdx, ?_, ?_⟩
      · simp only [Element.dorender, Element.moved] at hdy hsub ⊢
        simp only [Element.mk.injEq, true_and, and_true]
        exact ⟨rfl, rfl, hdy⟩
      · intro hlt
        linarith [hin.2]
      · simp only [Element.dorender, Element.moved] at hdy hsub ⊢
        exact ⟨c2, v, hsub, h0, h7, hdy, hmem⟩

/-- Any number of ticks preserves `NoReturn`. -/
theorem NoReturn_ticks (canvas : Canvas) (n : ℕ) (el : Element) (h : NoReturn canvas el) :
    NoReturn canvas (ticks canvas n el) := by
  induction n generalizing el with
  | zero => exact h
  | succ n ih => exact ih _ (NoReturn_doFrame canvas el h)

/-- The elements built by the three constructors, on a canvas of positive height and from
draws in `[0, 1)`, satisfy `NoReturn`. -/
theorem NoReturn_construct (type : ElementType) (canvas : Canvas) (random : ℕ → ℚ)
    (hh : 0 < canvas.height) (hr : ∀ i, 0 ≤ random i ∧ random i < 1) :
    NoReturn canvas (construct type canvas random) := by
  cases type with
  | Snow =>
    unfold construct Snow.constructor
    simp only
    split
    · exact ⟨0, _, 2, 1, rfl, by norm_num, fun _ => by norm_num, by norm_num⟩
    · exact ⟨_, 0, 2, 1, rfl, by norm_num, fun _ => by norm_num, by norm_num⟩
  | Rain =>
    have hdy := (randInt_range 2 5 (random 1) (by norm_num) (hr 1).1 (hr 1).2).1
    have hq : (0 : ℚ) ≤ ((randInt 2 5 (random 1) : ℤ) : ℚ) := by
      exact_mod_cast (by omega : (0 : ℤ) ≤ randInt 2 5 (random 1))
    exact ⟨_, 0, 0, _, rfl, le_refl _, fun _ => hq, hq⟩
  | Bug =>
    have hb := BugInv_constructor canvas random (hr 0)
    have hy := (randInt_one_range canvas.height (random 1) hh (hr 1).1 (hr 1).2).2
    have hdx := (randInt_range 1 6 (random 2) (by norm_num) (hr 2).1 (hr 2).2).1
    obtain ⟨c, v, hsub, h0, h7, hv, hmem⟩ := hb
    refine ⟨0, ((randInt 1 canvas.height (random 1) : ℤ) : ℚ),
      ((randInt 1 6 (random 2) : ℤ) : ℚ), (v : ℚ), ?_, ?_, ?_, ?_⟩
    · show Bug.constructor canvas random = _
      unfold Bug.constructor at hv ⊢
      simp only at hv ⊢
      rw [hv]
      rfl
    · exact_mod_cast (by omega : (0 : ℤ) ≤ randInt 1 6 (random 2))
    · intro hlt
      have : ((randInt 1 canvas.height (random 1) : ℤ) : ℚ) ≤ (canvas.height : ℚ) := by
        exact_mod_cast hy
      linarith
    · exact ⟨c, v, hsub, h0, h7, hv, hmem⟩

/-- An element that satisfies `NoReturn` and is out of bounds is out of bounds again after
the move of the next tick. -/
theorem NoReturn_stays_out (canvas : Canvas) (el : Element) (h : NoReturn canvas el)
    (hout : outOfBounds canvas el = true) : outOfBounds canvas el.moved = true := by
  obtain ⟨x, y, dx, dy, hel, hdx, hy, -⟩ := h
  rw [hel] at hout ⊢
  simp only [outOfBounds, Element.moved, Value.num_add_num, Value.gt_num, Bool.or_eq_true,
    decide_eq_true_eq] at hout ⊢
  rcases hout with hx | hy2
  · left
    linarith
  · right
    linarith [hy hy2]

/-- Splitting a run of ticks. -/
theorem ticks_add (canvas : Canvas) (n j : ℕ) (el : Element) :
    ticks canvas (n + j) el = ticks canvas j (ticks canvas n el) := by
  induction n generalizing el with
  | zero => rw [Nat.zero_add]; rfl
  | succ n ih =>
    rw [Nat.add_right_comm]
    exact ih (el.doFrame canvas).1

/-- Once a tick finds an element that satisfies `NoReturn` out of bounds, every later tick
finds it out of bounds too, with the same velocity and class part. -/
theorem out_forever (canvas : Canvas) (el : Element) (hinv : NoReturn canvas el)
    (hout : outOfBounds canvas el.moved = true) (j : ℕ) :
    outOfBounds canvas (ticks canvas j el).moved = true ∧
      (ticks canvas j el).dx = el.dx ∧ (ticks canvas j el).dy = el.dy ∧
      (ticks canvas j el).sub = el.sub := by
  induction j with
  | zero => exact ⟨hout, rfl, rfl, rfl⟩
  | succ j ih =>
    obtain ⟨ho, hdx, hdy, hsub⟩ := ih
    have hstep : ticks canvas (j + 1) el = (ticks canvas j el).moved := by
      rw [ticks_succ_last, doFrame_of_out canvas _ ho]
    have hinv2 : NoReturn canvas (ticks canvas (j + 1) el) := NoReturn_ticks canvas _ el hinv
    refine ⟨NoReturn_stays_out canvas _ hinv2 ?_, ?_, ?_, ?_⟩
    · rw [hstep]
      exact ho
    · rw [hstep]
      exact hdx
    · rw [hstep]
      exact hdy
    · rw [hstep]
      exact hsub

/-- C13: for every element built by the `Snow`, `Rain` or `Bug` constructor, on a canvas
of positive height and from draws in `[0, 1)`: if tick number `n` finds it out of bounds
(`x > width` or `y > height` after the move), then that tick draws nothing, the position
`(x, y)` and velocity `(dx, dy)` it leaves are numbers with `dx ≥ 0` if `x > width` and
`dy ≥ 0` if `y > height`, and every later tick `m` finds the element out of bounds again,
draws nothing and leaves the velocity and the class part (for `Bug`, the cursor) as they
were.  This is proved for `doFrame` as it runs, where the out-of-bounds branch does not
disable later calls.  (The width of the canvas plays no part, so it is not assumed
positive.) -/
theorem constructed_never_redrawn (type : ElementType) (canvas : Canvas) (random : ℕ → ℚ)
    (hh : 0 < canvas.height) (hr : ∀ i, 0 ≤ random i ∧ random i < 1) (n : ℕ)
    (hout : outOfBounds canvas (ticks canvas n (construct type canvas random)).moved = true) :
    drawnAt canvas n (construct type canvas random) = [] ∧
      ∃ x y dx dy : ℚ,
        (ticks canvas (n + 1) (construct type canvas random)).x = .num x ∧
        (ticks canvas (n + 1) (construct type canvas random)).y = .num y ∧
        (ticks canvas (n + 1) (construct type canvas random)).dx = .num dx ∧
        (ticks canvas (n + 1) (construct type canvas random)).dy = .num dy ∧
        ((canvas.width : ℚ) < x → 0 ≤ dx) ∧ ((canvas.height : ℚ) < y → 0 ≤ dy) ∧
        ∀ m, n < m →
          outOfBounds canvas (ticks canvas m (construct type canvas random)).moved = true ∧
          drawnAt canvas m (construct type canvas random) = [] ∧
          (ticks canvas (m + 1) (construct type canvas random)).dx = .num dx ∧
          (ticks canvas (m + 1) (construct type canvas random)).dy = .num dy ∧
          (ticks canvas (m + 1) (construct type canvas random)).sub
            = (ticks canvas n (construct type canvas random)).sub := by
  have hinv0 := NoReturn_construct type canvas random hh hr
  have hinv : NoReturn canvas (ticks canvas n (construct type canvas random)) :=
    NoReturn_ticks canvas n _ hinv0
  have hfor := out_forever canvas _ hinv hout
  have hinv1 : NoReturn canvas (ticks canvas (n + 1) (construct type canvas random)) :=
    NoReturn_ticks canvas (n + 1) _ hinv0
  obtain ⟨x, y, dx, dy, hel, hdx, hy, -⟩ := hinv1
  have hvel : ∀ j, (ticks canvas (n + j) (construct type canvas random)).dx = .num dx ∧
      (ticks canvas (n + j) (construct type canvas random)).dy = .num dy ∧
      (ticks canvas (n + j) (construct type canvas random)).sub
        = (ticks canvas n (construct type canvas random)).sub := by
    intro j
    have h1 := hfor 1
    have hj := hfor j
    rw [← ticks_add] at h1 hj
    have e1 : (ticks canvas (n + 1) (construct type canvas random)).dx = .num dx := by
      rw [hel]
    have e2 : (ticks canvas (n + 1) (construct type canvas random)).dy = .num dy := by
      rw [hel]
    exact ⟨by rw [hj.2.1, ← h1.2.1, e1], by rw [hj.2.2.1, ← h1.2.2.1, e2], hj.2.2.2⟩
  refine ⟨?_, x, y, dx, dy, by rw [hel], by rw [hel], by rw [hel], by rw [hel],
    fun _ => hdx, hy, ?_⟩
  · show ((ticks canvas n (construct type canvas random)).doFrame canvas).2 = []
    rw [doFrame_of_out canvas _ hout]
  · intro m hm
    obtain ⟨j, rfl⟩ : ∃ j, m = n + j := ⟨m - n, by omega⟩
    have hj := hfor j
    rw [← ticks_add] at hj
    refine ⟨hj.1, ?_, ?_⟩
    · show ((ticks canvas (n + j) (construct type canvas random)).doFrame canvas).2 = []
      rw [doFrame_of_out canvas _ hj.1]
    · exact hvel (j + 1)

/-- Witness of C13: the `Snow` built on a 100 x 100 canvas from the draws `0` and `63/64`
starts at `(99, 0)`; its first tick (number `0`) finds it out of bounds, and tick number
`5` draws nothing. -/
theorem constructed_never_redrawn_witness :
    outOfBounds ⟨100, 100⟩
        (ticks ⟨100, 100⟩ 0 (construct .Snow ⟨100, 100⟩ (draws [0, 63 / 64]))).moved = true ∧
      drawnAt ⟨100, 100⟩ 5 (construct .Snow ⟨100, 100⟩ (draws [0, 63 / 64])) = [] := by
  have hs : construct .Snow ⟨100, 100⟩ (draws [0, 63 / 64])
      = ⟨.num 99, .num 0, .num 2, .num 1, .Snow⟩ := by
    norm_num [construct, Snow.constructor, Math.round, draws, randInt, Int.floor_eq_iff]
  have hout : outOfBounds ⟨100, 100⟩
      (ticks ⟨100, 100⟩ 0 (construct .Snow ⟨100, 100⟩ (draws [0, 63 / 64]))).moved = true := by
    rw [hs]
    norm_num [ticks, Element.moved, outOfBounds, Value.num_add_num, Value.gt_num]
  obtain ⟨-, x, y, dx, dy, -, -, -, -, -, -, hlater⟩ :=
    constructed_never_redrawn .Snow ⟨100, 100⟩ (draws [0, 63 / 64]) (by decide)
      (draws_unit _ (by norm_num)) 0 hout
  exact ⟨hout, (hlater 5 (by norm_num)).2.1⟩

/-! ## The vertical drift of a `Bug` -/

/-- Prefix sums of the table lie between `0` and `4`. -/
theorem prefixSum_range (c : ℤ) (h0 : 0 ≤ c) (h7 : c ≤ 7) :
    0 ≤ prefixSum c ∧ prefixSum c ≤ 4 := by
  interval_cases c <;> simp [prefixSum, dyLoop]

/-- Adding the table entry at `c` to the prefix sum at `c` gives the prefix sum at the
advanced cursor (the table sums to `0`, so this also holds at the wrap-around). -/
theorem prefixSum_next (c v : ℤ) (h0 : 0 ≤ c) (h7 : c ≤ 7) (hv : index dyLoop c = .num v) :
    prefixSum c + v = prefixSum (Int.tmod (c + 1) dyLoop.length) := by
  interval_cases c <;> simp [index, dyLoop] at hv <;> norm_cast at hv <;> subst hv <;>
    simp [prefixSum, dyLoop, Int.tmod]

/-- A new `Bug` built from a cursor draw in `[0, 1)` satisfies `Drift` for its own spawn
height and an offset between `-5` and `1`. -/
theorem Drift_constructor (canvas : Canvas) (random : ℕ → ℚ)
    (h0 : 0 ≤ random 0 ∧ random 0 < 1) :
    ∃ K : ℤ, -5 ≤ K ∧ K ≤ 1 ∧
      Drift ((randInt 1 canvas.height (random 1) : ℤ) : ℚ) K
        (Bug.constructor canvas random) := by
  have hc := randInt_range 0 8 (random 0) (by norm_num) h0.1 h0.2
  have hc0 : 0 ≤ randInt 0 8 (random 0) := hc.1
  have hc7 : randInt 0 8 (random 0) ≤ 7 := by have := hc.2; omega
  obtain ⟨v, -, hv, -⟩ := index_dyLoop _ hc0 hc7
  have hK : -5 ≤ v - prefixSum (randInt 0 8 (random 0)) ∧
      v - prefixSum (randInt 0 8 (random 0)) ≤ 1 := by
    revert hv
    generalize randInt 0 8 (random 0) = c at hc0 hc7
    intro hv
    interval_cases c <;> simp [index, dyLoop] at hv <;> norm_cast at hv <;> subst hv <;>
      simp [prefixSum, dyLoop]
  refine ⟨v - prefixSum (randInt 0 8 (random 0)), hK.1, hK.2, ?_⟩
  refine ⟨randInt 0 8 (random 0), ((randInt 1 canvas.height (random 1) : ℤ) : ℚ), (v : ℚ),
    rfl, hc0, hc7, rfl, hv, ?_⟩
  push_cast
  ring

/-- A tick that finds the `Bug` in bounds preserves `Drift`. -/
theorem Drift_doFrame (canvas : Canvas) (y0 : ℚ) (K : ℤ) (el : Element)
    (h : Drift y0 K el) (hin : outOfBounds canvas el.moved = false) :
    Drift y0 K (el.doFrame canvas).1 := by
  obtain ⟨c, y, d, hsub, h0, h7, hy, hd, hsum⟩ := h
  obtain ⟨v, -, hv, -⟩ := index_dyLoop c h0 h7
  have hn := cursor_next c h0 h7
  have hp := prefixSum_next c v h0 h7 hv
  have hsub2 : el.moved.sub = .Bug dyLoop c := hsub
  have hy2 : el.moved.y = .num (y + d) := by
    show el.y + el.dy = _
    rw [hy, hd]
    rfl
  rw [doFrame_eq, hin]
  simp only [Bool.false_eq_true, if_false]
  unfold Element.dorender
  simp only [hsub2]
  refine ⟨_, y + d, (v : ℚ), rfl, hn.1, hn.2, hy2, hv, ?_⟩
  rw [hsum, ← hp]
  push_cast
  ring

/-- The height reached by the next tick of a `Bug` that satisfies `Drift` with an offset
between `-5` and `1` is within `5` of the spawn height. -/
theorem Drift_next_height (canvas : Canvas) (y0 : ℚ) (K : ℤ) (el : Element)
    (h : Drift y0 K el) (hK : -5 ≤ K ∧ K ≤ 1) :
    ∃ y : ℚ, (el.doFrame canvas).1.y = .num y ∧ |y - y0| ≤ 5 := by
  obtain ⟨c, y, d, -, h0, h7, hy, hd, hsum⟩ := h
  have hP := prefixSum_range c h0 h7
  refine ⟨y + d, ?_, ?_⟩
  · rw [(doFrame_position canvas el).2, hy, hd]
    rfl
  · have e : y + d - y0 = ((K + prefixSum c : ℤ) : ℚ) := by
      rw [hsum]
      push_cast
      ring
    rw [e, ← Int.cast_abs]
    have : |K + prefixSum c| ≤ 5 := by
      rw [abs_le]
      constructor <;> omega
    exact_mod_cast this

/-- C15: for every `Bug` built by the constructor from a cursor draw in `[0, 1)`, with
spawn height `y0`, and every `k` (in particular every `k ≥ 1`): if the first `k - 1` ticks
all found the bug in bounds, then the height `y` after `k` ticks satisfies
`|y - y0| ≤ 5`. -/
theorem Bug_drift (canvas : Canvas) (random : ℕ → ℚ) (h0 : 0 ≤ random 0 ∧ random 0 < 1)
    (k : ℕ)
    (hin : ∀ j, j + 1 < k →
      outOfBounds canvas (ticks canvas j (Bug.constructor canvas random)).moved = false) :
    ∃ y0 y : ℚ, (Bug.constructor canvas random).y = .num y0 ∧
      (ticks canvas k (Bug.constructor canvas random)).y = .num y ∧ |y - y0| ≤ 5 := by
  obtain ⟨K, hK5, hK1, hD⟩ := Drift_constructor canvas random h0
  refine ⟨((randInt 1 canvas.height (random 1) : ℤ) : ℚ), ?_⟩
  cases k with
  | zero => exact ⟨_, rfl, rfl, by norm_num⟩
  | succ k =>
    have hall : ∀ j, j ≤ k →
        Drift ((randInt 1 canvas.height (random 1) : ℤ) : ℚ) K
          (ticks canvas j (Bug.constructor canvas random)) := by
      intro j
      induction j with
      | zero => intro _; exact hD
      | succ j ih =>
        intro hj
        rw [ticks_succ_last]
        exact Drift_doFrame canvas _ K _ (ih (by omega)) (hin j (by omega))
    obtain ⟨y, hy, hle⟩ := Drift_next_height canvas _ K _ (hall k (le_refl k)) ⟨hK5, hK1⟩
    exact ⟨y, rfl, by rw [ticks_succ_last]; exact hy, hle⟩

/-- Witness of C15: the `Bug` built on a 100 x 100 canvas from the draws `0.25`, `0.5`,
`0` (cursor `2`, spawn height `51`) stays in bounds during its first two ticks, and is at
height `56` after the third. -/
theorem Bug_drift_witness :
    (∀ j, j + 1 < 3 → outOfBounds ⟨100, 100⟩
        (ticks ⟨100, 100⟩ j (Bug.constructor ⟨100, 100⟩ (draws [1 / 4, 1 / 2, 0]))).moved
          = false) ∧
      (ticks ⟨100, 100⟩ 3 (Bug.constructor ⟨100, 100⟩ (draws [1 / 4, 1 / 2, 0]))).y = .num 56 ∧
      ∃ y0 y : ℚ, (Bug.constructor ⟨100, 100⟩ (draws [1 / 4, 1 / 2, 0])).y = .num y0 ∧
        (ticks ⟨100, 100⟩ 3 (Bug.constructor ⟨100, 100⟩ (draws [1 / 4, 1 / 2, 0]))).y = .num y ∧
        |y - y0| ≤ 5 := by
  have hb : Bug.constructor ⟨100, 100⟩ (draws [1 / 4, 1 / 2, 0])
      = ⟨.num 0, .num 51, .num 1, .num 2, .Bug [0, 1, 2, 1, 0, -1, -2, -1] 2⟩ := by
    norm_num [Bug.constructor, draws, randInt, Int.floor_eq_iff, dyLoop, index, Int.toNat]
  have h1 : ticks ⟨100, 100⟩ 1 ⟨.num 0, .num 51, .num 1, .num 2,
      .Bug [0, 1, 2, 1, 0, -1, -2, -1] 2⟩
      = ⟨.num 1, .num 53, .num 1, .num 2, .Bug [0, 1, 2, 1, 0, -1, -2, -1] 3⟩ := by
    norm_num [ticks, Element.doFrame, Element.dorender, deleteDoFrame,
      Value.num_add_num, Value.gt_num, index, Int.tmod, Int.toNat]
  have h3 : ticks ⟨100, 100⟩ 3 ⟨.num 0, .num 51, .num 1, .num 2,
      .Bug [0, 1, 2, 1, 0, -1, -2, -1] 2⟩
      = ⟨.num 3, .num 56, .num 1, .num 0, .Bug [0, 1, 2, 1, 0, -1, -2, -1] 5⟩ := by
    norm_num [ticks, Element.doFrame, Element.dorender, deleteDoFrame,
      Value.num_add_num, Value.gt_num, index, Int.tmod, Int.toNat]
  have hin : ∀ j, j + 1 < 3 → outOfBounds ⟨100, 100⟩
      (ticks ⟨100, 100⟩ j (Bug.constructor ⟨100, 100⟩ (draws [1 / 4, 1 / 2, 0]))).moved
        = false := by
    intro j hj
    have hj2 : j < 2 := by omega
    rw [hb]
    interval_cases j
    · norm_num [ticks, Element.moved, outOfBounds, Value.num_add_num, Value.gt_num]
    · rw [h1]
      norm_num [Element.moved, outOfBounds, Value.num_add_num, Value.gt_num]
  refine ⟨hin, ?_, Bug_drift ⟨100, 100⟩ (draws [1 / 4, 1 / 2, 0])
    (draws_unit _ (by norm_num) 0) 3 hin⟩
  rw [hb, h3]

end ParticleSystem
